import Mathlib

/-!
Verification development for the multi-agent orchestrator repository.

This file gives a shallow embedding, in Lean 4, of the pure core of the
repository's agent-selection and workflow-execution engine:

* `src/system/workflow_executor.py` / `src/agents/orchestrator_workflow.py` —
  the overall-success verdict and the per-step retry loop;
* `src/agents/registry.py` — agent definitions, metrics updates and skill-tier
  promotion;
* `src/agents/task_router.py` — task analysis (pattern matching over the task
  description) and agent selection;
* `src/system/workflow_history.py` — the execution-history record and its
  mutating operations.

Python floats are modelled as exact rationals (`ℚ`); machine wall-clock
timestamps and file I/O are external effects and are not part of the model
(no modelled field depends on them).  Python dictionaries preserve insertion
order, so the agent registry is modelled as an ordered list with unique names.
-/

namespace Orchestrator

/-! ## Workflow overall-success verdict

Translated from `src/system/workflow_executor.py` line 191 and (identically)
`src/agents/orchestrator_workflow.py` line 398:
`success = failed_steps == 0 or (completed_steps > 0 and failed_steps < len(steps))`.
-/

def overallSuccess (completedSteps failedSteps totalSteps : Nat) : Bool :=
  failedSteps == 0 || (completedSteps > 0 && failedSteps < totalSteps)

/-! ## Per-step retry loop

Translated from `src/agents/orchestrator_workflow.py` lines 277–390.  The loop
runs `while step_iterations[step_id] <= max_retries`.  Each iteration performs
one external invocation whose combined outcome (invocation + output
validation) we abstract as a function `attempt : Nat → AttemptOutcome` giving
the outcome of the k-th attempt:

* `validated`     — invocation succeeded and validation passed: the step is
  recorded completed and the loop exits with success;
* `invalidOutput` — invocation succeeded but validation failed;
* `execFailed`    — the invocation itself failed (or raised): in both failure
  cases the iteration counter is incremented and, once it exceeds
  `max_retries`, the step is recorded failed and the loop exits.

`retryRun attempt iter rem` runs the loop from iteration counter `iter` with
`rem = max_retries + 1 - iter` remaining permitted iterations (the loop guard
`iter ≤ max_retries` is exactly `rem > 0`); it returns the number of
invocation attempts performed and whether the step succeeded.
-/

inductive AttemptOutcome where
  | validated
  | invalidOutput
  | execFailed
deriving DecidableEq

def retryRun (attempt : Nat → AttemptOutcome) : Nat → Nat → Nat × Bool
  | _iter, 0 => (0, false)
  | iter, rem + 1 =>
    match attempt iter with
    | .validated => (1, true)
    | _ =>
      let r := retryRun attempt (iter + 1) rem
      (r.1 + 1, r.2)

/-- The whole retry loop for a step with retry budget `maxRetries`,
starting from iteration counter 0 (as in the source). -/
def runStepRetries (maxRetries : Nat) (attempt : Nat → AttemptOutcome) : Nat × Bool :=
  retryRun attempt 0 (maxRetries + 1)

/-! ## Agent registry (`src/agents/registry.py`) -/

/-- `AgentMetrics` dataclass (lines 25–41).  `last_used` is a wall-clock
timestamp and is omitted from the model (no modelled behaviour reads it). -/
structure AgentMetrics where
  total_tasks : Nat := 0
  successful_tasks : Nat := 0
  failed_tasks : Nat := 0
  total_tokens : Nat := 0
  total_cost : ℚ := 0
  avg_completion_time : ℚ := 0
deriving DecidableEq, Repr

/-- The `success_rate` property: 0 when no tasks, else `successful/total*100`. -/
def AgentMetrics.success_rate (m : AgentMetrics) : ℚ :=
  if m.total_tasks = 0 then 0
  else ((m.successful_tasks : ℚ) / (m.total_tasks : ℚ)) * 100

/-- `AgentDefinition` dataclass (lines 44–59).  `metrics` is always present
after `__post_init__`, so it is a plain field here. -/
structure AgentDefinition where
  name : String
  description : String := ""
  role : String := ""
  tools : List String := []
  capabilities : List String := []
  system_prompt : String := ""
  model : String := "claude-sonnet-4-5"
  skill_level : String := "novice"
  metrics : AgentMetrics := {}
deriving DecidableEq, Repr

/-- `AgentRegistry._update_skill_level` (lines 263–277): the `if`/`elif`
promotion chain, evaluated on the (already updated) metrics. -/
def updateSkillLevel (a : AgentDefinition) : AgentDefinition :=
  if a.metrics.total_tasks ≥ 50 ∧ a.metrics.success_rate ≥ 90 ∧
      a.skill_level = "expert" then
    { a with skill_level := "master" }
  else if a.metrics.total_tasks ≥ 20 ∧ a.metrics.success_rate ≥ 85 ∧
      a.skill_level = "intermediate" then
    { a with skill_level := "expert" }
  else if a.metrics.total_tasks ≥ 5 ∧ a.metrics.success_rate ≥ 75 ∧
      a.skill_level = "novice" then
    { a with skill_level := "intermediate" }
  else a

/-- The per-agent mutation performed by `AgentRegistry.update_metrics`
(lines 234–259) once the agent has been found: increment the counters,
accumulate tokens and cost, update the rolling average completion time
(with the source's `if metrics.avg_completion_time == 0` reset branch),
then re-evaluate the skill level.  Wall-clock `last_used` is omitted. -/
def updateMetricsAgent (a : AgentDefinition) (success : Bool) (tokens : Nat)
    (cost duration : ℚ) : AgentDefinition :=
  let m := a.metrics
  let m := { m with total_tasks := m.total_tasks + 1 }
  let m := if success then { m with successful_tasks := m.successful_tasks + 1 }
           else { m with failed_tasks := m.failed_tasks + 1 }
  let m := { m with total_tokens := m.total_tokens + tokens,
                    total_cost := m.total_cost + cost }
  let m :=
    if m.avg_completion_time = 0 then
      { m with avg_completion_time := duration }
    else
      { m with avg_completion_time :=
          (m.avg_completion_time * ((m.total_tasks : ℚ) - 1) + duration) / (m.total_tasks : ℚ) }
  updateSkillLevel { a with metrics := m }

/-- Skill-tier rank along `novice < intermediate < expert < master`. -/
def tierRank (tier : String) : Nat :=
  if tier = "master" then 3
  else if tier = "expert" then 2
  else if tier = "intermediate" then 1
  else 0

/-- The one-step promotion edges of the skill ladder. -/
def tierSuccessors : List (String × String) :=
  [("novice", "intermediate"), ("intermediate", "expert"), ("expert", "master")]

/-- Apply a finite sequence of `update_metrics` calls
(`(success, tokens, cost, duration)` tuples) to an agent. -/
def applyUpdates (a : AgentDefinition) (us : List (Bool × Nat × ℚ × ℚ)) : AgentDefinition :=
  us.foldl (fun x u => updateMetricsAgent x u.1 u.2.1 u.2.2.1 u.2.2.2) a

/-! ## Workflow execution history (`src/system/workflow_history.py`)

`StepExecution` and `WorkflowExecution` dataclasses, and the mutating
operations `start_step`, `complete_step`, `fail_step`, `skip_step` and
`complete_execution` on one tracked execution.  Wall-clock timestamp and
duration fields are external effects and are omitted from the model; none of
the modelled control flow reads them. -/

structure StepExecution where
  step_id : String
  step_name : String
  agent : String
  status : String
  outputs : List String := []
  validation_passed : Bool := true
  validation_errors : List String := []
  error_message : Option String := none
deriving DecidableEq, Repr

structure WorkflowExecution where
  workflow_name : String
  workflow_version : String
  task_description : String
  status : String
  steps : List StepExecution := []
  total_steps : Nat := 0
  completed_steps : Nat := 0
  failed_steps : Nat := 0
  skipped_steps : Nat := 0
  quality_gates_passed : List String := []
  quality_gates_failed : List String := []
  user_interventions : Nat := 0
  outputs_generated : List String := []
deriving DecidableEq, Repr

/-- `start_execution` (lines 104–120): a fresh running execution record. -/
def startExecution (workflowName workflowVersion taskDescription : String) :
    WorkflowExecution :=
  { workflow_name := workflowName
    workflow_version := workflowVersion
    task_description := taskDescription
    status := "running" }

/-- Update the first element of the list satisfying `p` with `f`; returns the
new list and whether a matching element was found.  This is the
`for step in execution.steps: if step.step_id == step_id: ...; break` idiom
used by `complete_step`, `fail_step` and `skip_step`. -/
def updFirst (p : StepExecution → Bool) (f : StepExecution → StepExecution) :
    List StepExecution → List StepExecution × Bool
  | [] => ([], false)
  | s :: rest =>
    if p s then (f s :: rest, true)
    else
      let r := updFirst p f rest
      (s :: r.1, r.2)

/-- `start_step` (lines 122–136): append a running step record and increment
`total_steps`. -/
def startStep (e : WorkflowExecution) (stepId stepName agent : String) :
    WorkflowExecution :=
  { e with
    steps := e.steps ++ [{ step_id := stepId, step_name := stepName,
                           agent := agent, status := "running" }]
    total_steps := e.total_steps + 1 }

/-- The record update `complete_step` performs on the matched step: status
becomes `completed`; outputs and validation errors are stored only when
non-empty (Python truthiness). -/
def completeStepUpd (outputs : List String) (validationPassed : Bool)
    (validationErrors : List String) (s : StepExecution) : StepExecution :=
  { s with
    status := "completed"
    outputs := if outputs.isEmpty then s.outputs else outputs
    validation_passed := validationPassed
    validation_errors := if validationErrors.isEmpty then s.validation_errors
                         else validationErrors }

/-- The record update `fail_step` performs on the matched step. -/
def failStepUpd (errorMessage : String) (s : StepExecution) : StepExecution :=
  { s with status := "failed", error_message := some errorMessage }

/-- The record update `skip_step` performs on the matched step. -/
def skipStepUpd (reason : String) (s : StepExecution) : StepExecution :=
  { s with status := "skipped", error_message := some reason }

/-- `complete_step` (lines 138–167): mark the first step with the given id
completed, record outputs (truthiness: only a non-empty list is stored and
extended onto `outputs_generated`) and validation results, and increment
`completed_steps` — all only when such a step exists. -/
def completeStep (e : WorkflowExecution) (stepId : String) (outputs : List String)
    (validationPassed : Bool) (validationErrors : List String) : WorkflowExecution :=
  let r := updFirst (fun s => s.step_id == stepId)
    (completeStepUpd outputs validationPassed validationErrors) e.steps
  if r.2 then
    { e with
      steps := r.1
      outputs_generated := if outputs.isEmpty then e.outputs_generated
                           else e.outputs_generated ++ outputs
      completed_steps := e.completed_steps + 1 }
  else e

/-- `fail_step` (lines 169–189): mark the first step with the given id failed,
record the error message, increment `failed_steps` — only when found. -/
def failStep (e : WorkflowExecution) (stepId errorMessage : String) : WorkflowExecution :=
  let r := updFirst (fun s => s.step_id == stepId) (failStepUpd errorMessage) e.steps
  if r.2 then { e with steps := r.1, failed_steps := e.failed_steps + 1 } else e

/-- `skip_step` (lines 191–208): mark the first step with the given id skipped
(storing the reason in `error_message`); `skipped_steps` is incremented only
when a matching step record was found. -/
def skipStep (e : WorkflowExecution) (stepId reason : String) : WorkflowExecution :=
  let r := updFirst (fun s => s.step_id == stepId) (skipStepUpd reason) e.steps
  if r.2 then { e with steps := r.1, skipped_steps := e.skipped_steps + 1 } else e

/-- `complete_execution` (lines 229–254): finalize the overall status from the
`success` flag and the step counters (persistence and removal from the live
table are external effects). -/
def completeExecution (e : WorkflowExecution) (success : Bool) : WorkflowExecution :=
  if success ∧ e.failed_steps = 0 then { e with status := "completed" }
  else if e.failed_steps > 0 ∧ e.completed_steps > 0 then { e with status := "partial" }
  else { e with status := "failed" }

/-- The history operations of claim C9, applied to a single tracked execution. -/
inductive HistOp where
  | startStep (stepId stepName agent : String)
  | completeStep (stepId : String) (outputs : List String)
      (validationPassed : Bool) (validationErrors : List String)
  | failStep (stepId errorMessage : String)
  | skipStep (stepId reason : String)
  | completeExecution (success : Bool)
deriving DecidableEq, Repr

def applyOp (e : WorkflowExecution) : HistOp → WorkflowExecution
  | .startStep sid name agent => startStep e sid name agent
  | .completeStep sid outs vp ve => completeStep e sid outs vp ve
  | .failStep sid msg => failStep e sid msg
  | .skipStep sid reason => skipStep e sid reason
  | .completeExecution success => completeExecution e success

def runOps (e : WorkflowExecution) (ops : List HistOp) : WorkflowExecution :=
  ops.foldl applyOp e

/-- The step id targeted by a terminal operation (complete/fail/skip), if any. -/
def terminalId : HistOp → Option String
  | .completeStep sid _ _ _ => some sid
  | .failStep sid _ => some sid
  | .skipStep sid _ => some sid
  | _ => none

/-- The step ids of all terminal operations in a sequence. -/
def terminalIds (ops : List HistOp) : List String :=
  ops.filterMap terminalId

/-- A step-record status counted as terminal. -/
def isTerminalStatus (st : String) : Bool :=
  st == "completed" || st == "failed" || st == "skipped"

/-- The counter inequality of claim C9. -/
def counterInv (e : WorkflowExecution) : Prop :=
  e.completed_steps + e.failed_steps + e.skipped_steps ≤ e.total_steps

/-! ## Task router (`src/agents/task_router.py`)

The router lower-cases the task description and matches it against an ordered
dictionary of regular expressions.  Every pattern used by the source has the
shape `\b(alt|…)\s+(alt|…)` or `\b(alt|…)`, where each alternative is a
sequence of literal words joined by `\s*` (e.g. `clean\s*up`), and the
language patterns have the shape `\bword\b` (alternation of such words).
The matchers below implement exactly these shapes over the character list of
the (already lower-cased) description:

* `\b` before a group holds at a position whose previous character is absent
  or a non-word character (every alternative starts with a word character);
* `\s+` must consume the whole whitespace run (at least one character), since
  what follows starts with a non-space character;
* `\s*` likewise consumes the whole (possibly empty) whitespace run.
-/

def isWordChar (c : Char) : Bool := c.isAlphanum || c = '_'

/-- Python's `\s` class: space, tab, newline, carriage return, form feed,
vertical tab. -/
def pyIsSpace (c : Char) : Bool :=
  c = ' ' || c = '\t' || c = '\n' || c = '\x0d' || c = '\x0c' || c = '\x0b'

/-- Strip an exact literal from the front of a character list. -/
def stripLit : List Char → List Char → Option (List Char)
  | [], cs => some cs
  | _ :: _, [] => none
  | w :: ws, c :: cs => if c = w then stripLit ws cs else none

/-- Match one alternative — a sequence of literal segments joined by `\s*` —
returning the remainder of the input on success. -/
def matchAlt : List (List Char) → List Char → Option (List Char)
  | [], cs => some cs
  | seg :: rest, cs =>
    match stripLit seg cs with
    | none => none
    | some cs1 =>
      if rest.isEmpty then some cs1
      else matchAlt rest (cs1.dropWhile pyIsSpace)

/-- Match `(g1-alts)\s+(g2-alts)` at the current position. -/
def matchPairAt (g1 g2 : List (List (List Char))) (cs : List Char) : Bool :=
  g1.any fun a1 =>
    match matchAlt a1 cs with
    | none => false
    | some cs1 =>
      match cs1 with
      | [] => false
      | c :: _ =>
        pyIsSpace c &&
          g2.any fun a2 => (matchAlt a2 (cs1.dropWhile pyIsSpace)).isSome

/-- Match `(g-alts)` at the current position. -/
def matchGroupAt (g : List (List (List Char))) (cs : List Char) : Bool :=
  g.any fun a => (matchAlt a cs).isSome

/-- `\b` before a group whose alternatives begin with word characters. -/
def bdyBefore : Option Char → Bool
  | none => true
  | some c => !(isWordChar c)

/-- `re.search` for a `\b(g1)\s+(g2)` pattern: try every position. -/
def searchPairFrom (g1 g2 : List (List (List Char))) :
    Option Char → List Char → Bool
  | prev, cs =>
    (bdyBefore prev && matchPairAt g1 g2 cs) ||
      match cs with
      | [] => false
      | c :: rest => searchPairFrom g1 g2 (some c) rest

/-- `re.search` for a `\b(g)` pattern. -/
def searchGroupFrom (g : List (List (List Char))) :
    Option Char → List Char → Bool
  | prev, cs =>
    (bdyBefore prev && matchGroupAt g cs) ||
      match cs with
      | [] => false
      | c :: rest => searchGroupFrom g (some c) rest

/-- Word-character test on an optional character (ends of string count as
non-word). -/
def wordOpt : Option Char → Bool
  | none => false
  | some c => isWordChar c

/-- Match a literal with `\b` on both sides at the current position (the
trailing `\b` compares word-ness of the literal's last character with the
following character, which also handles `c\+\+`). -/
def matchWordBothAt (w : List Char) (prev : Option Char) (cs : List Char) : Bool :=
  match stripLit w cs with
  | none => false
  | some rest =>
    (wordOpt prev != wordOpt w.head?) && (wordOpt w.getLast? != wordOpt rest.head?)

/-- `re.search` for an alternation of `\bword\b` literals. -/
def searchWordFrom (alts : List (List Char)) : Option Char → List Char → Bool
  | prev, cs =>
    (alts.any fun w => matchWordBothAt w prev cs) ||
      match cs with
      | [] => false
      | c :: rest => searchWordFrom alts (some c) rest

/-- Substring containment: Python's `keyword in text`. -/
def containsSub (w : List Char) : List Char → Bool
  | [] => w.isEmpty
  | c :: rest => w.isPrefixOf (c :: rest) || containsSub w rest

/-- Non-overlapping occurrence count, scanning left to right and skipping
the remaining `w.length - 1` characters after each match: Python's
`str.count`.  The `skip` counter makes the recursion structural. -/
def countOccurAux (w : List Char) : Nat → List Char → Nat
  | _, [] => 0
  | skip + 1, _ :: rest => countOccurAux w skip rest
  | 0, c :: rest =>
    if w.isPrefixOf (c :: rest) then 1 + countOccurAux w (w.length - 1) rest
    else countOccurAux w 0 rest

def countOccur (w cs : List Char) : Nat := countOccurAux w 0 cs

/-- Maximal runs of word characters: `re.findall(r'\b\w+\b', text)`. -/
def splitWordsAux : List Char → List Char → List (List Char)
  | acc, [] => if acc.isEmpty then [] else [acc.reverse]
  | acc, c :: rest =>
    if isWordChar c then splitWordsAux (c :: acc) rest
    else if acc.isEmpty then splitWordsAux [] rest
    else acc.reverse :: splitWordsAux [] rest

def splitWords (cs : List Char) : List (List Char) := splitWordsAux [] cs

def strLower (s : String) : String := String.mk (s.data.map Char.toLower)

/-- Convert a group of alternatives (each a `\s*`-joined list of literal
words) into character lists. -/
def grp (alts : List (List String)) : List (List (List Char)) :=
  alts.map (fun a => a.map String.data)

def searchPair (g1 g2 : List (List String)) (s : String) : Bool :=
  searchPairFrom (grp g1) (grp g2) none s.data

def searchGroup (g : List (List String)) (s : String) : Bool :=
  searchGroupFrom (grp g) none s.data

def searchWords (ws : List String) (s : String) : Bool :=
  searchWordFrom (ws.map String.data) none s.data

/-- One entry of `TaskRouter.TASK_PATTERNS`: a pattern matcher together with
the task type and base capabilities it assigns. -/
structure TaskPattern where
  search : String → Bool
  ttype : String
  caps : List String

/-- `TaskRouter.TASK_PATTERNS` (lines 35–72), in dictionary (insertion)
order. -/
def TASK_PATTERNS : List TaskPattern :=
  [ { search := searchPair [["review"], ["analyze"], ["examine"], ["inspect"]]
        [["code"], ["implementation"], ["module"], ["function"]],
      ttype := "code_analysis",
      caps := ["code_review", "architecture", "best_practices"] },
    { search := searchPair [["implement"], ["create"], ["build"], ["add"], ["write"]]
        [["feature"], ["functionality"], ["function"], ["class"], ["module"]],
      ttype := "implementation",
      caps := ["implementation", "feature_development"] },
    { search := searchPair [["refactor"], ["improve"], ["optimize"], ["clean", "up"]]
        [["code"], ["implementation"]],
      ttype := "refactoring",
      caps := ["refactoring", "code_review", "implementation"] },
    { search := searchPair [["fix"], ["resolve"], ["debug"]]
        [["bug"], ["issue"], ["error"], ["problem"]],
      ttype := "bug_fixing",
      caps := ["bug_fixing", "implementation"] },
    { search := searchPair [["test"], ["validate"], ["verify"], ["check"]]
        [["code"], ["functionality"], ["feature"], ["implementation"]],
      ttype := "testing",
      caps := ["testing", "qa", "validation"] },
    { search := searchPair [["research"], ["investigate"], ["find"], ["search", "for"]]
        [["documentation"], ["library"], ["best", "practice"], ["solution"]],
      ttype := "research",
      caps := ["research", "documentation", "best_practices"] },
    { search := searchGroup
        [["document"], ["write", "docs"], ["create", "documentation"], ["add", "comments"]],
      ttype := "documentation",
      caps := ["documentation", "technical_writing"] },
    { search := searchPair [["deploy"], ["build"], ["setup"], ["configure"]]
        [["application"], ["environment"], ["pipeline"], ["infrastructure"]],
      ttype := "devops",
      caps := ["devops", "deployment", "environment"] },
    { search := searchGroup [["docker"], ["containerize"], ["kubernetes"]],
      ttype := "devops",
      caps := ["devops", "docker"] } ]

/-- `TaskRouter.LANGUAGE_PATTERNS` (lines 75–83), in dictionary order;
each pattern is an alternation of `\b…\b`-delimited literals. -/
def LANGUAGE_PATTERNS : List ((String → Bool) × String) :=
  [ (searchWords ["python"], "python"),
    (searchWords ["javascript", "js", "node"], "javascript"),
    (searchWords ["typescript", "ts"], "typescript"),
    (searchWords ["java"], "java"),
    (searchWords ["go", "golang"], "go"),
    (searchWords ["rust"], "rust"),
    (searchWords ["c++", "cpp"], "cpp") ]

def COMPLEXITY_HIGH : List String :=
  ["refactor", "architecture", "system", "multiple", "complex",
   "scalable", "distributed", "migration"]

def COMPLEXITY_MEDIUM : List String :=
  ["implement", "feature", "integration", "api", "module"]

/-- `TaskAnalysis` dataclass (lines 11–19). -/
structure TaskAnalysis where
  task_type : String
  required_capabilities : List String
  complexity : String
  can_parallelize : Bool
  estimated_subtasks : Nat
  keywords : List String
deriving DecidableEq, Repr

/-- `TaskRouter._can_parallelize` (lines 243–254). -/
def canParallelizeFn (taskDescription taskType : String) : Bool :=
  let tl := (strLower taskDescription).data
  let hasSequential :=
    ["then", "after", "before", "first", "next", "finally", "step"].any
      (fun k => containsSub k.data tl)
  (["research", "code_analysis", "testing"].contains taskType) && !hasSequential

/-- `TaskRouter._estimate_subtasks` (lines 256–273): 1 plus the number of
occurrences of each list-joining marker, scaled by the complexity multiplier
(1 / 1.5 / 2, truncated to an integer as Python's `int(...)` does), at
least 1. -/
def estimateSubtasks (taskDescription complexity : String) : Nat :=
  let tl := (strLower taskDescription).data
  let count :=
    1 + ((["and", ",", ";", "then", "also", "plus"].map
            (fun m => countOccur m.data tl)).sum)
  let scaled :=
    if complexity = "medium" then (3 * count) / 2
    else if complexity = "complex" then 2 * count
    else count
  max 1 scaled

def STOP_WORDS : List String :=
  ["the", "a", "an", "and", "or", "but", "in", "on", "at", "to", "for",
   "of", "with", "by", "from", "up", "about", "into", "through", "during"]

/-- `TaskRouter._extract_keywords` (lines 275–287). -/
def extractKeywords (taskDescription : String) : List String :=
  let words := splitWords (strLower taskDescription).data
  ((words.filter (fun w =>
      !((STOP_WORDS.map String.data).contains w) && w.length > 3)).map
    String.mk).take 10

/-- `TaskRouter.analyze_task` (lines 97–142).  The first matching task
pattern wins; every matching language pattern appends its capability.
Python's `list(set(capabilities))` has unspecified order, so the model takes
the first-occurrence deduplication; all downstream uses are set-like
(membership and distinct count). -/
def analyzeTask (taskDescription : String) : TaskAnalysis :=
  let taskLower := strLower taskDescription
  let matched := TASK_PATTERNS.find? (fun p => p.search taskLower)
  let taskType := match matched with | some p => p.ttype | none => "general"
  let baseCaps := match matched with | some p => p.caps | none => []
  let langCaps := LANGUAGE_PATTERNS.filterMap
    (fun pl => if pl.1 taskLower then some pl.2 else none)
  let tl := taskLower.data
  let highCount := COMPLEXITY_HIGH.countP (fun k => containsSub k.data tl)
  let mediumCount := COMPLEXITY_MEDIUM.countP (fun k => containsSub k.data tl)
  let complexity :=
    if highCount ≥ 2 then "complex"
    else if highCount ≥ 1 ∨ mediumCount ≥ 2 then "medium"
    else "simple"
  { task_type := taskType
    required_capabilities := (baseCaps ++ langCaps).eraseDups
    complexity := complexity
    can_parallelize := canParallelizeFn taskDescription taskType
    estimated_subtasks := estimateSubtasks taskDescription complexity
    keywords := extractKeywords taskDescription }

/-! ## Agent selection (`src/agents/task_router.py` lines 144–241 and
`src/agents/registry.py` lines 189–232)

The registry's `self.agents` is a Python dict (insertion-ordered, unique
keys), modelled as an ordered list of agent definitions. -/

/-- `AgentRegistry.get_agent` (lines 189–191). -/
def getAgent (agents : List AgentDefinition) (name : String) : Option AgentDefinition :=
  agents.find? (fun a => a.name == name)

/-- `len(set(lowered agent capabilities) ∩ set(lowered required))`, as in
`find_best_agent` and `_calculate_confidence`. -/
def capMatchCount (agentCaps requiredCaps : List String) : Nat :=
  (((agentCaps.map strLower).eraseDups).filter
    (fun c => (requiredCaps.map strLower).contains c)).length

/-- The `skill_bonus` table of `AgentRegistry.find_best_agent`
(lines 216–221), default 1.0. -/
def skillBonus (tier : String) : ℚ :=
  if tier = "novice" then 1
  else if tier = "intermediate" then 6/5
  else if tier = "expert" then 3/2
  else if tier = "master" then 2
  else 1

/-- `AgentRegistry.find_best_agent` (lines 200–232): keep the
capability-overlapping candidates with their scores, then pick the first
highest-scoring one (Python's stable descending sort followed by `[0]`). -/
def findBestAgent (agents : List AgentDefinition) (capabilities : List String)
    (exclude : List String) : Option AgentDefinition :=
  let candidates := agents.filterMap (fun agent =>
    if exclude.contains agent.name then none
    else
      let matchCount := capMatchCount agent.capabilities capabilities
      if matchCount > 0 then
        some ((matchCount : ℚ) * skillBonus agent.skill_level *
                (agent.metrics.success_rate / 100), agent)
      else none)
  match candidates with
  | [] => none
  | c :: rest => some ((rest.foldl (fun best x => if x.1 > best.1 then x else best) c).2)

/-- The skill-level table of `TaskRouter._calculate_confidence`
(lines 192–197): {novice: 0.8, intermediate: 1.0, expert: 1.2, master: 1.5},
default 1.0. -/
def confSkillMultiplier (tier : String) : ℚ :=
  if tier = "novice" then 4/5
  else if tier = "intermediate" then 1
  else if tier = "expert" then 6/5
  else if tier = "master" then 3/2
  else 1

/-- `TaskRouter._calculate_confidence` (lines 177–202): the overlap local is
0.5 when no capability is required, else distinct-overlap over distinct
required count (on lower-cased sets); the result is capped at 0.95. -/
def calculateConfidence (agent : AgentDefinition) (analysis : TaskAnalysis) : ℚ :=
  min ((if ((analysis.required_capabilities.map strLower).eraseDups).isEmpty then (1 : ℚ)/2
        else (capMatchCount agent.capabilities analysis.required_capabilities : ℚ) /
               ((((analysis.required_capabilities.map strLower).eraseDups).length : ℚ))) *
       (agent.metrics.success_rate / 100) * confSkillMultiplier agent.skill_level) (19/20)

/-- `AgentAssignment` dataclass (lines 22–28). -/
structure AgentAssignment where
  agent : AgentDefinition
  priority : String
  confidence_score : ℚ
  reason : String
deriving DecidableEq, Repr

/-- `TaskRouter._find_supporting_agents` (lines 204–241). -/
def findSupportingAgents (agents : List AgentDefinition) (analysis : TaskAnalysis)
    (exclude : List String) : List AgentAssignment :=
  let s1 :=
    if ["implementation", "bug_fixing", "refactoring"].contains analysis.task_type then
      match getAgent agents "tester" with
      | some tester =>
        if exclude.contains tester.name then []
        else [{ agent := tester, priority := "supporting", confidence_score := 4/5,
                reason := "Validate implementation" }]
      | none => []
    else []
  let s2 :=
    if analysis.complexity = "complex" then
      match getAgent agents "researcher" with
      | some researcher =>
        if exclude.contains researcher.name then []
        else [{ agent := researcher, priority := "optional", confidence_score := 3/5,
                reason := "Research best practices for complex task" }]
      | none => []
    else []
  let s3 :=
    if analysis.task_type = "implementation" ∧
        (analysis.complexity = "medium" ∨ analysis.complexity = "complex") then
      match getAgent agents "code_analyst" with
      | some analyst =>
        if exclude.contains analyst.name then []
        else [{ agent := analyst, priority := "supporting", confidence_score := 7/10,
                reason := "Review implementation quality" }]
      | none => []
    else []
  s1 ++ s2 ++ s3

/-- Python's `l[:n]` for a possibly negative `n`. -/
def pySliceTake (n : Int) (l : List α) : List α :=
  if 0 ≤ n then l.take n.toNat else l.take (l.length - (-n).toNat)

/-- The primary pick of `select_agents` (lines 149–158). -/
def primaryAssignments (agents : List AgentDefinition) (analysis : TaskAnalysis) :
    List AgentAssignment :=
  if analysis.required_capabilities.isEmpty then []
  else
    match findBestAgent agents analysis.required_capabilities [] with
    | some primaryAgent =>
      [{ agent := primaryAgent, priority := "primary",
         confidence_score := calculateConfidence primaryAgent analysis,
         reason := "Best match for " ++
           String.intercalate ", " (analysis.required_capabilities.take 2) }]
    | none => []

/-- The assignments accumulated by `select_agents` before the fallback check
(lines 147–162): the primary pick plus the supporting agents, the latter
sliced by `supporting[:max_agents - len(assignments)]`. -/
def preAssignments (agents : List AgentDefinition) (analysis : TaskAnalysis)
    (maxAgents : Nat) : List AgentAssignment :=
  primaryAssignments agents analysis ++
    pySliceTake ((maxAgents : Int) - ((primaryAssignments agents analysis).length : Int))
      (findSupportingAgents agents analysis
        ((primaryAssignments agents analysis).map (fun a => a.agent.name)))

/-- `TaskRouter.select_agents` (lines 144–175). -/
def selectAgents (agents : List AgentDefinition) (taskDescription : String)
    (maxAgents : Nat) : List AgentAssignment :=
  let analysis := analyzeTask taskDescription
  let assignments := preAssignments agents analysis maxAgents
  if assignments.isEmpty then
    match getAgent agents "code_writer" with
    | some codeWriter =>
      [{ agent := codeWriter, priority := "primary", confidence_score := 0,
         reason := "Default agent for general tasks" }]
    | none => []
  else assignments

/-! ## Spec-side definitions and concrete inputs used by the theorems -/

/-- The skill multiplier stated by the spec for the confidence score:
{novice: 1.0, intermediate: 1.2, expert: 1.5, master: 2.0}.  (This is the
table the source uses for `find_best_agent` scoring, `skillBonus`, not the
one `_calculate_confidence` uses.) -/
def claimSkillMultiplier (tier : String) : ℚ :=
  if tier = "novice" then 1
  else if tier = "intermediate" then 6/5
  else if tier = "expert" then 3/2
  else if tier = "master" then 2
  else 1

/-- Capability-overlap ratio of a chosen agent against the analysis, as both
the claimed and the actual confidence formula use it: 0.5 when no capability
is required, else |agent ∩ required| / |required| on lower-cased capability
sets. -/
def overlapRatio (agent : AgentDefinition) (analysis : TaskAnalysis) : ℚ :=
  if ((analysis.required_capabilities.map strLower).eraseDups).isEmpty then (1 : ℚ)/2
  else (capMatchCount agent.capabilities analysis.required_capabilities : ℚ) /
         ((((analysis.required_capabilities.map strLower).eraseDups).length : ℚ))

/-- The confidence score exactly as claim C5 states it: overlap ratio times
success-rate fraction times the spec's skill multiplier, capped at 0.95. -/
def claimConfidence (agent : AgentDefinition) (analysis : TaskAnalysis) : ℚ :=
  min (overlapRatio agent analysis * (agent.metrics.success_rate / 100) *
        claimSkillMultiplier agent.skill_level) (19/20)

/-- The skill multiplier the code actually applies in
`_calculate_confidence`: {novice: 0.8, intermediate: 1.0, expert: 1.2,
master: 1.5}, default 1.0 — the amended form of claim C5. -/
def amendedSkillMultiplier (tier : String) : ℚ :=
  if tier = "novice" then 4/5
  else if tier = "intermediate" then 1
  else if tier = "expert" then 6/5
  else if tier = "master" then 3/2
  else 1

/-- The confidence score as the amended claim C5 states it. -/
def amendedConfidence (agent : AgentDefinition) (analysis : TaskAnalysis) : ℚ :=
  min (overlapRatio agent analysis * (agent.metrics.success_rate / 100) *
        amendedSkillMultiplier agent.skill_level) (19/20)

/-- The step id started by an operation, if it is a `start_step`. -/
def startsStepId : HistOp → Option String
  | .startStep sid _ _ => some sid
  | _ => none

/-- A one-agent directory whose agent is not named `code_writer` and offers
no matching capability: used against claim C3. -/
def soloRegistry : List AgentDefinition :=
  [{ name := "solo", capabilities := ["magic"] }]

/-- A directory containing only the registered default agent `code_writer`. -/
def cwOnlyAgent : AgentDefinition := { name := "code_writer" }

def cwOnlyRegistry : List AgentDefinition := [cwOnlyAgent]

/-- A one-agent directory with a bug-fixing-capable agent: used against
claim C4 with `max_agents = 0`. -/
def fixerRegistry : List AgentDefinition :=
  [{ name := "fixer", capabilities := ["bug_fixing"] }]

/-- A novice agent with success rate 50% and one relevant capability:
used against claim C5's multiplier table. -/
def noviceFixer : AgentDefinition :=
  { name := "fixer5", capabilities := ["bug_fixing"], skill_level := "novice",
    metrics := { total_tasks := 2, successful_tasks := 1, failed_tasks := 1 } }

def noviceFixerRegistry : List AgentDefinition := [noviceFixer]

/-- An agent whose stored rolling average is 0 while 5 tasks are already
counted: the state claim C7 singles out. -/
def zeroAvgAgent : AgentDefinition :=
  { name := "a7",
    metrics := { total_tasks := 5, successful_tasks := 3, failed_tasks := 2 } }

/-- An agent with a nonzero stored rolling average (4.0 over 1 task). -/
def nonzeroAvgAgent : AgentDefinition :=
  { name := "a7w",
    metrics := { total_tasks := 1, successful_tasks := 1,
                 avg_completion_time := 4 } }

/-- A bug-fixing-capable developer and a tester: the directory of the
end-to-end scenario of claim C8. -/
def bugFixerAgent : AgentDefinition :=
  { name := "bugfix_dev", capabilities := ["bug_fixing", "implementation"] }

def testerAgent : AgentDefinition :=
  { name := "tester", capabilities := ["testing", "qa", "validation"] }

def bugFixRegistry : List AgentDefinition := [bugFixerAgent, testerAgent]

/-- The operation sequence used against claim C9: one started step receives
`complete_step` twice. -/
def doubleCompleteOps : List HistOp :=
  [.startStep "s" "Step S" "agent",
   .completeStep "s" [] true [],
   .completeStep "s" [] true []]

/-- A well-formed operation sequence (each step id receives one terminal
operation): witness input for the amended claim C9. -/
def wellFormedOps : List HistOp :=
  [.startStep "design" "Create Design" "designer",
   .completeStep "design" ["DESIGN.md"] true [],
   .startStep "implement" "Implement App" "code_writer",
   .failStep "implement" "boom",
   .startStep "test" "Test App" "tester",
   .skipStep "test" "Optional step",
   .completeExecution true]

/-- The invariant carried through a run of history operations: the
`total_steps` counter counts the step records, the terminal counters are
bounded by the number of terminal-status records, and no step targeted by a
still-pending terminal operation already has a terminal status. -/
def HistInv (e : WorkflowExecution) (pendingIds : List String) : Prop :=
  e.total_steps = e.steps.length ∧
  e.completed_steps + e.failed_steps + e.skipped_steps ≤
    (e.steps.filter (fun s => isTerminalStatus s.status)).length ∧
  ∀ id ∈ pendingIds, ∀ s ∈ e.steps, s.step_id = id → isTerminalStatus s.status = false

/-! ## Theorems -/

/-- C1: the overall success verdict of `execute_workflow` (and of
`_execute_with_workflow`) is true exactly when `failed_steps = 0` or
`completed_steps > 0 ∧ failed_steps < total_steps`; an execution with no
failed and no completed steps is reported successful, and the triples
(0 failed, 3 completed of 3), (1 failed, 2 completed of 3) and
(3 failed, 0 completed of 3) yield success, success, failure. -/
theorem overall_success_verdict_iff :
    (∀ completedSteps failedSteps totalSteps : Nat,
        overallSuccess completedSteps failedSteps totalSteps = true ↔
          (failedSteps = 0 ∨ (0 < completedSteps ∧ failedSteps < totalSteps)))
    ∧ (∀ totalSteps : Nat, overallSuccess 0 0 totalSteps = true)
    ∧ overallSuccess 3 0 3 = true
    ∧ overallSuccess 2 1 3 = true
    ∧ overallSuccess 0 3 3 = false := by
  refine ⟨?_, ?_, rfl, rfl, rfl⟩
  · intro c f t
    simp [overallSuccess]
  · intro t
    simp [overallSuccess]

theorem retryRun_of_never_validated (attempt : Nat → AttemptOutcome)
    (h : ∀ k, attempt k ≠ .validated) :
    ∀ rem iter, retryRun attempt iter rem = (rem, false) := by
  intro rem
  induction rem with
  | zero => intro iter; rfl
  | succ n ih =>
    intro iter
    unfold retryRun
    cases hA : attempt iter with
    | validated => exact absurd hA (h iter)
    | invalidOutput => simp [ih]
    | execFailed => simp [ih]

theorem retryRun_fst_le (attempt : Nat → AttemptOutcome) :
    ∀ rem iter, (retryRun attempt iter rem).1 ≤ rem := by
  intro rem
  induction rem with
  | zero => intro iter; exact Nat.le_refl 0
  | succ n ih =>
    intro iter
    unfold retryRun
    cases attempt iter with
    | validated => exact Nat.succ_le_succ (Nat.zero_le n)
    | invalidOutput => exact Nat.succ_le_succ (ih (iter + 1))
    | execFailed => exact Nat.succ_le_succ (ih (iter + 1))

/-- C2: a step whose invocation succeeds but whose validation fails on every
attempt (and, more generally, any step that never validates) performs exactly
`max_retries + 1` invocation attempts and is then recorded failed; the loop
never performs more than `max_retries + 1` attempts, terminating as soon as
the attempt counter exceeds `max_retries`. -/
theorem retry_budget_exhaustion (maxRetries : Nat) (attempt : Nat → AttemptOutcome)
    (h : ∀ k, attempt k ≠ .validated) :
    runStepRetries maxRetries attempt = (maxRetries + 1, false) ∧
      ∀ attempt2 : Nat → AttemptOutcome,
        (runStepRetries maxRetries attempt2).1 ≤ maxRetries + 1 := by
  exact ⟨retryRun_of_never_validated attempt h (maxRetries + 1) 0,
         fun attempt2 => retryRun_fst_le attempt2 (maxRetries + 1) 0⟩

/-- Witness for C2 at `max_retries = 2` and attempts that always fail
validation: exactly 3 invocation attempts, step recorded failed. -/
theorem retry_budget_exhaustion_witness :
    runStepRetries 2 (fun _ => AttemptOutcome.invalidOutput) = (3, false) :=
  (retry_budget_exhaustion 2 (fun _ => AttemptOutcome.invalidOutput)
    (fun _ h => AttemptOutcome.noConfusion h)).1

theorem updateSkillLevel_metrics (a : AgentDefinition) :
    (updateSkillLevel a).metrics = a.metrics := by
  unfold updateSkillLevel
  split
  · rfl
  · split
    · rfl
    · split <;> rfl

theorem updateSkillLevel_step (a : AgentDefinition) :
    (updateSkillLevel a).skill_level = a.skill_level ∨
      (a.skill_level, (updateSkillLevel a).skill_level) ∈ tierSuccessors := by
  unfold updateSkillLevel
  split
  · next h => right; simp [tierSuccessors, h.2.2]
  · split
    · next h => right; simp [tierSuccessors, h.2.2]
    · split
      · next h => right; simp [tierSuccessors, h.2.2]
      · left; rfl

theorem updateMetricsAgent_step (a : AgentDefinition) (success : Bool)
    (tokens : Nat) (cost duration : ℚ) :
    (updateMetricsAgent a success tokens cost duration).skill_level = a.skill_level ∨
      (a.skill_level, (updateMetricsAgent a success tokens cost duration).skill_level)
        ∈ tierSuccessors := by
  unfold updateMetricsAgent
  exact updateSkillLevel_step _

theorem tierRank_le_of_updateMetrics (a : AgentDefinition) (success : Bool)
    (tokens : Nat) (cost duration : ℚ) :
    tierRank a.skill_level ≤
      tierRank (updateMetricsAgent a success tokens cost duration).skill_level := by
  rcases updateMetricsAgent_step a success tokens cost duration with h | h
  · rw [h]
  · simp only [tierSuccessors, List.mem_cons, List.mem_singleton,
      Prod.mk.injEq, List.not_mem_nil, or_false] at h
    rcases h with ⟨h1, h2⟩ | ⟨h1, h2⟩ | ⟨h1, h2⟩ <;> rw [h1, h2] <;> decide

/-- C6: a single `update_metrics` call either leaves the skill tier unchanged
or promotes it one level along novice < intermediate < expert < master, and
over any finite sequence of `update_metrics` calls the tier rank never
decreases (there is no demotion path). -/
theorem skill_tier_monotone :
    (∀ (a : AgentDefinition) (success : Bool) (tokens : Nat) (cost duration : ℚ),
        (updateMetricsAgent a success tokens cost duration).skill_level = a.skill_level ∨
          (a.skill_level, (updateMetricsAgent a success tokens cost duration).skill_level)
            ∈ tierSuccessors)
    ∧ ∀ (a : AgentDefinition) (us : List (Bool × Nat × ℚ × ℚ)),
        tierRank a.skill_level ≤ tierRank (applyUpdates a us).skill_level := by
  constructor
  · exact updateMetricsAgent_step
  · intro a us
    induction us generalizing a with
    | nil => exact Nat.le_refl _
    | cons u rest ih =>
      exact Nat.le_trans (tierRank_le_of_updateMetrics a u.1 u.2.1 u.2.2.1 u.2.2.2)
        (ih (updateMetricsAgent a u.1 u.2.1 u.2.2.1 u.2.2.2))

/-- Counterexample to C7: from the state with stored average 0 and 5 counted
tasks, a call with duration 12 stores average 12 (the reset branch), while
the claimed incremental-mean formula gives (0·5 + 12)/6 = 2. -/
theorem rolling_average_zero_counterexample :
    (updateMetricsAgent zeroAvgAgent true 0 0 12).metrics.avg_completion_time ≠
      (zeroAvgAgent.metrics.avg_completion_time *
          (((zeroAvgAgent.metrics.total_tasks : ℚ) + 1) - 1) + 12) /
        ((zeroAvgAgent.metrics.total_tasks : ℚ) + 1) := by
  unfold updateMetricsAgent
  rw [updateSkillLevel_metrics]
  norm_num [zeroAvgAgent]

/-- C7 amended: whenever the stored average before the call is nonzero, the
new rolling average equals the incremental mean
`(old_avg·(n−1) + duration)/n` with `n` the task count after the call (when
the stored average is 0 the code instead resets the average to `duration`). -/
theorem rolling_average_incremental_mean (a : AgentDefinition) (success : Bool)
    (tokens : Nat) (cost duration : ℚ)
    (h : a.metrics.avg_completion_time ≠ 0) :
    (updateMetricsAgent a success tokens cost duration).metrics.avg_completion_time =
      (a.metrics.avg_completion_time * (((a.metrics.total_tasks : ℚ) + 1) - 1) + duration) /
        ((a.metrics.total_tasks : ℚ) + 1) := by
  unfold updateMetricsAgent
  rw [updateSkillLevel_metrics]
  cases success <;> simp [h]

/-- Witness for C7 at a concrete agent with nonzero stored average. -/
theorem rolling_average_incremental_mean_witness :
    nonzeroAvgAgent.metrics.avg_completion_time ≠ 0 ∧
      (updateMetricsAgent nonzeroAvgAgent true 0 0 6).metrics.avg_completion_time =
        (nonzeroAvgAgent.metrics.avg_completion_time *
            (((nonzeroAvgAgent.metrics.total_tasks : ℚ) + 1) - 1) + 6) /
          ((nonzeroAvgAgent.metrics.total_tasks : ℚ) + 1) :=
  ⟨by decide, rolling_average_incremental_mean nonzeroAvgAgent true 0 0 6 (by decide)⟩

theorem updFirst_length (p : StepExecution → Bool) (f : StepExecution → StepExecution) :
    ∀ l : List StepExecution, (updFirst p f l).1.length = l.length := by
  intro l
  induction l with
  | nil => rfl
  | cons s rest ih =>
    unfold updFirst
    split
    · rfl
    · simp [ih]

theorem updFirst_of_none (p : StepExecution → Bool) (f : StepExecution → StepExecution)
    (l : List StepExecution) (h : ∀ s ∈ l, p s = false) :
    updFirst p f l = (l, false) := by
  induction l with
  | nil => rfl
  | cons s rest ih =>
    have hs : p s = false := h s (List.mem_cons_self s rest)
    have ih2 := ih (fun x hx => h x (List.mem_cons_of_mem s hx))
    simp [updFirst, hs, ih2]

theorem updFirst_mem (p : StepExecution → Bool) (f : StepExecution → StepExecution)
    (l : List StepExecution) :
    ∀ s ∈ (updFirst p f l).1, s ∈ l ∨ ∃ x ∈ l, p x = true ∧ s = f x := by
  induction l with
  | nil => intro s hs; exact absurd hs (by simp [updFirst])
  | cons a rest ih =>
    intro s hs
    unfold updFirst at hs
    cases hpa : p a with
    | true =>
      rw [hpa] at hs
      simp only [if_true] at hs
      rcases List.mem_cons.mp hs with h1 | h1
      · right; exact ⟨a, List.mem_cons_self _ _, hpa, h1⟩
      · left; exact List.mem_cons_of_mem _ h1
    | false =>
      rw [hpa] at hs
      simp only [Bool.false_eq_true, if_false] at hs
      rcases List.mem_cons.mp hs with h1 | h1
      · left; rw [h1]; exact List.mem_cons_self _ _
      · rcases ih s h1 with h2 | ⟨x, hx, hpx, hfx⟩
        · left; exact List.mem_cons_of_mem _ h2
        · right; exact ⟨x, List.mem_cons_of_mem _ hx, hpx, hfx⟩

theorem updFirst_filter_length (p : StepExecution → Bool)
    (f : StepExecution → StepExecution) (T : StepExecution → Bool) :
    ∀ l : List StepExecution,
      (∀ x ∈ l, p x = true → T x = false) →
      (∀ x, p x = true → T (f x) = true) →
      (updFirst p f l).2 = true →
      ((updFirst p f l).1.filter T).length = (l.filter T).length + 1 := by
  intro l
  induction l with
  | nil => intro _ _ hfound; exact absurd hfound (by simp [updFirst])
  | cons a rest ih =>
    intro hT hTf hfound
    cases hpa : p a with
    | true =>
      have hTa : T a = false := hT a (List.mem_cons_self _ _) hpa
      have hTfa : T (f a) = true := hTf a hpa
      simp [updFirst, hpa, hTa, hTfa]
    | false =>
      unfold updFirst at hfound ⊢
      rw [hpa] at hfound ⊢
      simp only [Bool.false_eq_true, if_false] at hfound ⊢
      have ihr := ih (fun x hx => hT x (List.mem_cons_of_mem a hx)) hTf hfound
      cases hTa : T a with
      | true => simp [List.filter_cons, hTa, ihr]
      | false => simp [List.filter_cons, hTa, ihr]

theorem HistInv_weaken (e : WorkflowExecution) (ids ids2 : List String)
    (hsub : ∀ id ∈ ids2, id ∈ ids) (h : HistInv e ids) : HistInv e ids2 :=
  ⟨h.1, h.2.1, fun id hid => h.2.2 id (hsub id hid)⟩

theorem HistInv_terminal_update (e e2 : WorkflowExecution) (stepId : String)
    (f : StepExecution → StepExecution)
    (hfid : ∀ s, (f s).step_id = s.step_id)
    (hfT : ∀ s, isTerminalStatus (f s).status = true)
    (ids : List String) (hnotin : stepId ∉ ids)
    (hInv : HistInv e (stepId :: ids))
    (hfound : (updFirst (fun s => s.step_id == stepId) f e.steps).2 = true)
    (hsteps : e2.steps = (updFirst (fun s => s.step_id == stepId) f e.steps).1)
    (htot : e2.total_steps = e.total_steps)
    (hsum : e2.completed_steps + e2.failed_steps + e2.skipped_steps =
            e.completed_steps + e.failed_steps + e.skipped_steps + 1) :
    HistInv e2 ids := by
  obtain ⟨hlen, hcnt, hpend⟩ := hInv
  refine ⟨?_, ?_, ?_⟩
  · rw [htot, hsteps, updFirst_length, hlen]
  · rw [hsum, hsteps]
    rw [updFirst_filter_length (fun s => s.step_id == stepId) f _ e.steps
      (fun x hx hpx => hpend stepId (List.mem_cons_self _ _) x hx (by simpa using hpx))
      (fun x _ => hfT x) hfound]
    exact Nat.add_le_add_right hcnt 1
  · intro id hid s hs hsid
    rw [hsteps] at hs
    rcases updFirst_mem _ _ _ s hs with hmem | ⟨x, hx, hpx, hfx⟩
    · exact hpend id (List.mem_cons_of_mem _ hid) s hmem hsid
    · exfalso
      apply hnotin
      have hss : s.step_id = stepId := by rw [hfx, hfid]; simpa using hpx
      rw [hss] at hsid
      exact hsid ▸ hid

theorem completeStepUpd_id (outputs : List String) (vp : Bool) (ve : List String)
    (s : StepExecution) : (completeStepUpd outputs vp ve s).step_id = s.step_id := rfl

theorem completeStepUpd_terminal (outputs : List String) (vp : Bool) (ve : List String)
    (s : StepExecution) : isTerminalStatus (completeStepUpd outputs vp ve s).status = true := rfl

theorem applyOp_preserves (e : WorkflowExecution) (op : HistOp) (ids : List String)
    (hnotin : ∀ sid, terminalId op = some sid → sid ∉ ids)
    (hInv : HistInv e ((terminalId op).toList ++ ids)) :
    HistInv (applyOp e op) ids := by
  obtain ⟨hlen, hcnt, hpend⟩ := hInv
  cases op with
  | startStep sid name agent =>
    simp only [terminalId, Option.toList, List.nil_append] at hpend
    refine ⟨?_, ?_, ?_⟩
    · simp [applyOp, startStep, hlen]
    · simp only [applyOp, startStep, List.filter_append]
      simpa [isTerminalStatus] using hcnt
    · intro id hid s hs hsid
      simp only [applyOp, startStep, List.mem_append, List.mem_singleton] at hs
      rcases hs with hs | hs
      · exact hpend id hid s hs hsid
      · rw [hs]; rfl
  | completeStep sid outs vp ve =>
    simp only [terminalId, Option.toList, List.singleton_append] at hpend hnotin
    have hnotin2 : sid ∉ ids := hnotin sid rfl
    unfold applyOp completeStep
    cases hfound : (updFirst (fun s => s.step_id == sid)
        (completeStepUpd outs vp ve) e.steps).2 with
    | false =>
      simp only [hfound, Bool.false_eq_true, if_false]
      exact ⟨hlen, hcnt, fun id hid => hpend id (List.mem_cons_of_mem _ hid)⟩
    | true =>
      simp only [hfound, if_true]
      refine HistInv_terminal_update e _ sid _ (completeStepUpd_id outs vp ve)
        (completeStepUpd_terminal outs vp ve) ids hnotin2 ⟨hlen, hcnt, hpend⟩
        hfound rfl rfl ?_
      show e.completed_steps + 1 + e.failed_steps + e.skipped_steps =
        e.completed_steps + e.failed_steps + e.skipped_steps + 1
      omega
  | failStep sid msg =>
    simp only [terminalId, Option.toList, List.singleton_append] at hpend hnotin
    have hnotin2 : sid ∉ ids := hnotin sid rfl
    unfold applyOp failStep
    cases hfound : (updFirst (fun s => s.step_id == sid) (failStepUpd msg) e.steps).2 with
    | false =>
      simp only [hfound, Bool.false_eq_true, if_false]
      exact ⟨hlen, hcnt, fun id hid => hpend id (List.mem_cons_of_mem _ hid)⟩
    | true =>
      simp only [hfound, if_true]
      refine HistInv_terminal_update e _ sid (failStepUpd msg) (fun s => rfl) (fun s => rfl)
        ids hnotin2 ⟨hlen, hcnt, hpend⟩ hfound rfl rfl ?_
      show e.completed_steps + (e.failed_steps + 1) + e.skipped_steps =
        e.completed_steps + e.failed_steps + e.skipped_steps + 1
      omega
  | skipStep sid reason =>
    simp only [terminalId, Option.toList, List.singleton_append] at hpend hnotin
    have hnotin2 : sid ∉ ids := hnotin sid rfl
    unfold applyOp skipStep
    cases hfound : (updFirst (fun s => s.step_id == sid) (skipStepUpd reason) e.steps).2 with
    | false =>
      simp only [hfound, Bool.false_eq_true, if_false]
      exact ⟨hlen, hcnt, fun id hid => hpend id (List.mem_cons_of_mem _ hid)⟩
    | true =>
      simp only [hfound, if_true]
      exact HistInv_terminal_update e _ sid (skipStepUpd reason) (fun s => rfl) (fun s => rfl)
        ids hnotin2 ⟨hlen, hcnt, hpend⟩ hfound rfl rfl rfl
  | completeExecution success =>
    simp only [terminalId, Option.toList, List.nil_append] at hpend
    show HistInv (completeExecution e success) ids
    unfold completeExecution
    split
    · exact ⟨hlen, hcnt, hpend⟩
    · split
      · exact ⟨hlen, hcnt, hpend⟩
      · exact ⟨hlen, hcnt, hpend⟩

theorem runOps_preserves (ops : List HistOp) :
    ∀ (ids : List String) (e : WorkflowExecution),
      (terminalIds ops ++ ids).Nodup →
      HistInv e (terminalIds ops ++ ids) →
      HistInv (runOps e ops) ids := by
  induction ops with
  | nil => intro ids e _ hInv; exact hInv
  | cons op rest ih =>
    intro ids e hnd hInv
    have hsplit : terminalIds (op :: rest) = (terminalId op).toList ++ terminalIds rest := by
      cases op <;> rfl
    rw [hsplit, List.append_assoc] at hnd hInv
    have step : HistInv (applyOp e op) (terminalIds rest ++ ids) := by
      apply applyOp_preserves e op _ _ hInv
      intro sid hsid hmem
      rw [hsid] at hnd
      simp only [Option.toList_some, List.singleton_append, List.nodup_cons] at hnd
      exact hnd.1 hmem
    have hnd2 : (terminalIds rest ++ ids).Nodup := by
      cases hop : terminalId op with
      | none => rw [hop] at hnd; simpa using hnd
      | some sid2 =>
        rw [hop] at hnd
        simp only [Option.toList_some, List.singleton_append, List.nodup_cons] at hnd
        exact hnd.2
    exact ih ids (applyOp e op) hnd2 step


/-- Counterexample to C9: starting one step and completing it twice drives
`completed_steps` to 2 while `total_steps` is 1, violating the claimed
inequality. -/
theorem history_counters_counterexample :
    ¬ counterInv (runOps (startExecution "w" "1.0.0" "t") doubleCompleteOps) := by
  unfold counterInv
  decide

/-- C9 amended: along any operation sequence in which each step id receives
at most one terminal operation (`complete_step`, `fail_step`, `skip_step`),
the inequality `completed_steps + failed_steps + skipped_steps ≤ total_steps`
holds after every operation (i.e. after every prefix `ops` of the full
sequence `ops ++ rest`).  Without that restriction the inequality can be
violated (see the counterexample). -/
theorem history_counters_bounded_of_unique_terminals
    (wname wver task : String) (ops rest : List HistOp)
    (h : (terminalIds (ops ++ rest)).Nodup) :
    counterInv (runOps (startExecution wname wver task) ops) := by
  have h2 : (terminalIds ops ++ terminalIds rest).Nodup := by
    unfold terminalIds at h ⊢
    rwa [List.filterMap_append] at h
  have hInv0 : HistInv (startExecution wname wver task)
      (terminalIds ops ++ terminalIds rest) := by
    refine ⟨rfl, ?_, ?_⟩
    · simp [startExecution]
    · intro id _ s hs
      exact absurd hs (by simp [startExecution])
  have hfin := runOps_preserves ops (terminalIds rest) _ h2 hInv0
  unfold counterInv
  calc (runOps (startExecution wname wver task) ops).completed_steps +
        (runOps (startExecution wname wver task) ops).failed_steps +
        (runOps (startExecution wname wver task) ops).skipped_steps
      ≤ ((runOps (startExecution wname wver task) ops).steps.filter
          (fun s => isTerminalStatus s.status)).length := hfin.2.1
    _ ≤ (runOps (startExecution wname wver task) ops).steps.length :=
        List.length_filter_le _ _
    _ = (runOps (startExecution wname wver task) ops).total_steps := hfin.1.symm

/-- Witness for C9 at a concrete well-formed operation sequence. -/
theorem history_counters_bounded_witness :
    (terminalIds (wellFormedOps ++ [])).Nodup ∧
      counterInv (runOps (startExecution "web-app" "1.0.0" "Build app") wellFormedOps) :=
  ⟨by decide,
   history_counters_bounded_of_unique_terminals "web-app" "1.0.0" "Build app"
     wellFormedOps [] (by decide)⟩

theorem applyOp_no_step_id (e : WorkflowExecution) (op : HistOp) (stepId : String)
    (hop : startsStepId op ≠ some stepId)
    (he : ∀ s ∈ e.steps, s.step_id ≠ stepId) :
    ∀ s ∈ (applyOp e op).steps, s.step_id ≠ stepId := by
  cases op with
  | startStep sid name agent =>
    intro s hs
    simp only [applyOp, startStep, List.mem_append, List.mem_singleton] at hs
    rcases hs with hs | hs
    · exact he s hs
    · rw [hs]
      intro hcontr
      apply hop
      show some sid = some stepId
      rw [show sid = stepId from hcontr]
  | completeStep sid outs vp ve =>
    intro s hs
    show s.step_id ≠ stepId
    have : (applyOp e (HistOp.completeStep sid outs vp ve)).steps = e.steps ∨
        (applyOp e (HistOp.completeStep sid outs vp ve)).steps =
          (updFirst (fun t => t.step_id == sid) (completeStepUpd outs vp ve) e.steps).1 := by
      show (completeStep e sid outs vp ve).steps = e.steps ∨
        (completeStep e sid outs vp ve).steps = _
      simp only [completeStep]
      split
      · right; rfl
      · left; rfl
    rcases this with hsteps | hsteps
    · rw [hsteps] at hs; exact he s hs
    · rw [hsteps] at hs
      rcases updFirst_mem _ _ _ s hs with hmem | ⟨x, hx, _, hfx⟩
      · exact he s hmem
      · rw [hfx, completeStepUpd_id]; exact he x hx
  | failStep sid msg =>
    intro s hs
    have : (applyOp e (HistOp.failStep sid msg)).steps = e.steps ∨
        (applyOp e (HistOp.failStep sid msg)).steps =
          (updFirst (fun t => t.step_id == sid) (failStepUpd msg) e.steps).1 := by
      show (failStep e sid msg).steps = e.steps ∨ (failStep e sid msg).steps = _
      simp only [failStep]
      split
      · right; rfl
      · left; rfl
    rcases this with hsteps | hsteps
    · rw [hsteps] at hs; exact he s hs
    · rw [hsteps] at hs
      rcases updFirst_mem _ _ _ s hs with hmem | ⟨x, hx, _, hfx⟩
      · exact he s hmem
      · rw [hfx]; exact he x hx
  | skipStep sid reason =>
    intro s hs
    have : (applyOp e (HistOp.skipStep sid reason)).steps = e.steps ∨
        (applyOp e (HistOp.skipStep sid reason)).steps =
          (updFirst (fun t => t.step_id == sid) (skipStepUpd reason) e.steps).1 := by
      show (skipStep e sid reason).steps = e.steps ∨ (skipStep e sid reason).steps = _
      simp only [skipStep]
      split
      · right; rfl
      · left; rfl
    rcases this with hsteps | hsteps
    · rw [hsteps] at hs; exact he s hs
    · rw [hsteps] at hs
      rcases updFirst_mem _ _ _ s hs with hmem | ⟨x, hx, _, hfx⟩
      · exact he s hmem
      · rw [hfx]; exact he x hx
  | completeExecution success =>
    intro s hs
    have : (applyOp e (HistOp.completeExecution success)).steps = e.steps := by
      show (completeExecution e success).steps = e.steps
      unfold completeExecution
      split
      · rfl
      · split <;> rfl
    rw [this] at hs
    exact he s hs

theorem runOps_no_step_id (ops : List HistOp) (stepId : String) :
    ∀ e : WorkflowExecution,
      (∀ op ∈ ops, startsStepId op ≠ some stepId) →
      (∀ s ∈ e.steps, s.step_id ≠ stepId) →
      ∀ s ∈ (runOps e ops).steps, s.step_id ≠ stepId := by
  induction ops with
  | nil => intro e _ he; exact he
  | cons op rest ih =>
    intro e hops he
    exact ih (applyOp e op)
      (fun o ho => hops o (List.mem_cons_of_mem op ho))
      (applyOp_no_step_id e op stepId (hops op (List.mem_cons_self _ _)) he)

/-- C10: calling `skip_step` for a step id on which `start_step` was never
called leaves the execution record entirely unchanged — no step record is
appended and `skipped_steps` is not incremented. -/
theorem skip_unstarted_step_noop (wname wver task stepId reason : String)
    (ops : List HistOp)
    (h : ∀ op ∈ ops, startsStepId op ≠ some stepId) :
    skipStep (runOps (startExecution wname wver task) ops) stepId reason =
      runOps (startExecution wname wver task) ops := by
  have hno : ∀ s ∈ (runOps (startExecution wname wver task) ops).steps,
      s.step_id ≠ stepId :=
    runOps_no_step_id ops stepId _ h (by intro s hs; exact absurd hs (by simp [startExecution]))
  unfold skipStep
  rw [updFirst_of_none _ _ _ (fun s hs => by simpa using hno s hs)]
  simp

/-- Witness for C10: skipping a never-started step id after one unrelated
started step changes nothing. -/
theorem skip_unstarted_step_noop_witness :
    (∀ op ∈ ([HistOp.startStep "a" "A" "ag"] : List HistOp),
        startsStepId op ≠ some "b") ∧
      skipStep (runOps (startExecution "w" "1" "t") [HistOp.startStep "a" "A" "ag"])
          "b" "not needed" =
        runOps (startExecution "w" "1" "t") [HistOp.startStep "a" "A" "ag"] :=
  ⟨by decide,
   skip_unstarted_step_noop "w" "1" "t" "b" "not needed"
     [HistOp.startStep "a" "A" "ag"] (by decide)⟩

/-- Counterexample to C3: a non-empty agent directory whose only agent is not
named `code_writer` and matches nothing yields zero assignments — the
fallback looks up the registered name `code_writer` and finds nothing. -/
theorem nonempty_directory_claim_counterexample :
    soloRegistry ≠ [] ∧ selectAgents soloRegistry "hello" 3 = [] := by
  constructor
  · decide
  · decide

/-- C3 amended: whenever an agent registered under the name `code_writer`
exists, `select_agents` returns at least one assignment; and whenever the
capability matching and the supporting rules produced no assignment at all,
that `code_writer` agent is returned as the sole primary assignment with
confidence 0.0 and the fixed low-confidence justification.  (For a non-empty
directory without a `code_writer` entry the selector can return zero
assignments, as the counterexample shows.) -/
theorem fallback_code_writer_assignment (agents : List AgentDefinition)
    (taskDescription : String) (maxAgents : Nat) (codeWriter : AgentDefinition)
    (h : getAgent agents "code_writer" = some codeWriter) :
    selectAgents agents taskDescription maxAgents ≠ [] ∧
      (preAssignments agents (analyzeTask taskDescription) maxAgents = [] →
        selectAgents agents taskDescription maxAgents =
          [{ agent := codeWriter, priority := "primary", confidence_score := 0,
             reason := "Default agent for general tasks" }]) := by
  have hsel : selectAgents agents taskDescription maxAgents =
      (if (preAssignments agents (analyzeTask taskDescription) maxAgents).isEmpty then
        (match getAgent agents "code_writer" with
         | some codeWriter =>
           [{ agent := codeWriter, priority := "primary", confidence_score := 0,
              reason := "Default agent for general tasks" }]
         | none => [])
       else preAssignments agents (analyzeTask taskDescription) maxAgents) := rfl
  cases hpre : preAssignments agents (analyzeTask taskDescription) maxAgents with
  | nil =>
    rw [hsel, hpre, h]
    refine ⟨by simp, fun _ => by simp⟩
  | cons x xs =>
    rw [hsel, hpre]
    refine ⟨by simp, fun hcontr => absurd hcontr (by simp)⟩

/-- Witness for C3 at a directory consisting of the `code_writer` agent and a
task matching nothing. -/
theorem fallback_code_writer_assignment_witness :
    getAgent cwOnlyRegistry "code_writer" = some cwOnlyAgent ∧
      (selectAgents cwOnlyRegistry "hello" 3 ≠ [] ∧
        (preAssignments cwOnlyRegistry (analyzeTask "hello") 3 = [] →
          selectAgents cwOnlyRegistry "hello" 3 =
            [{ agent := cwOnlyAgent, priority := "primary", confidence_score := 0,
               reason := "Default agent for general tasks" }])) :=
  ⟨rfl, fallback_code_writer_assignment cwOnlyRegistry "hello" 3 cwOnlyAgent rfl⟩

/-- Counterexample to C4: with `max_agents = 0` the selector still returns
the primary assignment (the primary pick is appended before the cap is
applied), so the claimed bound fails at `max_agents = 0`. -/
theorem max_agents_zero_counterexample :
    ¬ ((selectAgents fixerRegistry "fix bug" 0).length ≤ 0) := by
  decide

theorem pySliceTake_length_le {α : Type} (n : Int) (hn : 0 ≤ n) (l : List α) :
    (pySliceTake n l).length ≤ n.toNat := by
  unfold pySliceTake
  rw [if_pos hn]
  rw [List.length_take]
  exact Nat.min_le_left _ _

theorem primaryAssignments_cases (agents : List AgentDefinition)
    (analysis : TaskAnalysis) :
    primaryAssignments agents analysis = [] ∨
      ∃ x, primaryAssignments agents analysis = [x] := by
  unfold primaryAssignments
  split
  · left; rfl
  · split
    · right; exact ⟨_, rfl⟩
    · left; rfl

theorem preAssignments_length_le (agents : List AgentDefinition)
    (analysis : TaskAnalysis) (maxAgents : Nat) (h : 1 ≤ maxAgents) :
    (preAssignments agents analysis maxAgents).length ≤ maxAgents := by
  rcases primaryAssignments_cases agents analysis with h0 | ⟨x, h1⟩
  · unfold preAssignments
    rw [h0]
    simp only [List.nil_append, List.length_nil, Nat.cast_zero, sub_zero, List.map_nil]
    have hb := pySliceTake_length_le (α := AgentAssignment) (maxAgents : Int)
      (by omega) (findSupportingAgents agents analysis [])
    omega
  · unfold preAssignments
    rw [h1]
    rw [List.length_append]
    have hcast : ((([x] : List AgentAssignment).length : Nat) : Int) = 1 := by simp
    rw [hcast]
    have hb := pySliceTake_length_le (α := AgentAssignment) ((maxAgents : Int) - 1)
      (by omega) (findSupportingAgents agents analysis
        (List.map (fun a => a.agent.name) [x]))
    simp only [List.length_singleton]
    omega

/-- C4 amended: for every `max_agents ≥ 1`, `select_agents` returns at most
`max_agents` assignments.  (At `max_agents = 0` the bound fails, as the
counterexample shows: the primary pick and the fallback are appended without
consulting the cap.) -/
theorem select_agents_le_max_of_pos (agents : List AgentDefinition)
    (taskDescription : String) (maxAgents : Nat) (h : 1 ≤ maxAgents) :
    (selectAgents agents taskDescription maxAgents).length ≤ maxAgents := by
  have hpre := preAssignments_length_le agents (analyzeTask taskDescription) maxAgents h
  have hsel : selectAgents agents taskDescription maxAgents =
      (if (preAssignments agents (analyzeTask taskDescription) maxAgents).isEmpty then
        (match getAgent agents "code_writer" with
         | some codeWriter =>
           [{ agent := codeWriter, priority := "primary", confidence_score := 0,
              reason := "Default agent for general tasks" }]
         | none => [])
       else preAssignments agents (analyzeTask taskDescription) maxAgents) := rfl
  rw [hsel]
  split
  · cases getAgent agents "code_writer" with
    | some cw => simpa using h
    | none => simp
  · exact hpre

/-- Witness for C4 at `max_agents = 3`. -/
theorem select_agents_le_max_of_pos_witness :
    1 ≤ 3 ∧ (selectAgents fixerRegistry "fix bug" 3).length ≤ 3 :=
  ⟨by decide, select_agents_le_max_of_pos fixerRegistry "fix bug" 3 (by decide)⟩

/-- Counterexample to C5: for the novice agent chosen as primary for
"fix bug" (overlap ratio 1/2, success rate 50%), the code computes
confidence 1/2 · 1/2 · 0.8 = 0.2, while the claim's formula with the
{novice: 1.0, …, master: 2.0} multiplier gives 1/2 · 1/2 · 1.0 = 0.25. -/
theorem confidence_multiplier_counterexample :
    selectAgents noviceFixerRegistry "fix bug" 3 =
      [{ agent := noviceFixer, priority := "primary",
         confidence_score := calculateConfidence noviceFixer (analyzeTask "fix bug"),
         reason := "Best match for bug_fixing, implementation" }] ∧
      calculateConfidence noviceFixer (analyzeTask "fix bug") = 1/5 ∧
      claimConfidence noviceFixer (analyzeTask "fix bug") = 1/4 ∧
      ((1 : ℚ)/5) ≠ 1/4 := by
  have hempty : ((analyzeTask "fix bug").required_capabilities.map strLower).eraseDups.isEmpty = false := by
    decide
  have hmatch : capMatchCount noviceFixer.capabilities (analyzeTask "fix bug").required_capabilities = 1 := by
    decide
  have hlen : ((analyzeTask "fix bug").required_capabilities.map strLower).eraseDups.length = 2 := by
    decide
  have hsr : noviceFixer.metrics.success_rate = 50 := by
    norm_num [AgentMetrics.success_rate, noviceFixer]
  refine ⟨rfl, ?_, ?_, by norm_num⟩
  · unfold calculateConfidence
    rw [hempty, hmatch, hlen, hsr]
    have hmul : confSkillMultiplier noviceFixer.skill_level = 4/5 := by
      norm_num [confSkillMultiplier, noviceFixer]
    rw [hmul]
    rw [if_neg (by simp)]
    rw [min_eq_left (by norm_num)]
    norm_num
  · unfold claimConfidence overlapRatio
    rw [hempty, hmatch, hlen, hsr]
    have hmul : claimSkillMultiplier noviceFixer.skill_level = 1 := by
      norm_num [claimSkillMultiplier, noviceFixer]
    rw [hmul]
    rw [if_neg (by simp)]
    rw [min_eq_left (by norm_num)]
    norm_num

theorem success_rate_nonneg (m : AgentMetrics) : 0 ≤ m.success_rate := by
  unfold AgentMetrics.success_rate
  split
  · exact le_refl 0
  · positivity

theorem confSkillMultiplier_nonneg (tier : String) : 0 ≤ confSkillMultiplier tier := by
  unfold confSkillMultiplier
  split
  · norm_num
  · split
    · norm_num
    · split
      · norm_num
      · split <;> norm_num

theorem overlapRatio_nonneg (agent : AgentDefinition) (analysis : TaskAnalysis) :
    0 ≤ overlapRatio agent analysis := by
  unfold overlapRatio
  split
  · norm_num
  · positivity

/-- C5 amended: the confidence score of `_calculate_confidence` — the score
attached to every primary assignment chosen by capability matching — equals
capability-overlap ratio × (success_rate/100) × skill multiplier with the
table {novice: 0.8, intermediate: 1.0, expert: 1.2, master: 1.5} (default
1.0), capped at 0.95; it always lies in [0, 0.95] and so never reaches 1.0.
(The spec's table {novice: 1.0, intermediate: 1.2, expert: 1.5, master: 2.0}
is the one the source uses for candidate scoring in `find_best_agent`, not
for the confidence score — see the counterexample.) -/
theorem confidence_formula_and_bounds :
    ∀ (agent : AgentDefinition) (analysis : TaskAnalysis),
      calculateConfidence agent analysis = amendedConfidence agent analysis ∧
      0 ≤ calculateConfidence agent analysis ∧
      calculateConfidence agent analysis ≤ 19/20 := by
  intro agent analysis
  refine ⟨rfl, ?_, ?_⟩
  · unfold calculateConfidence
    refine le_min ?_ (by norm_num)
    refine mul_nonneg (mul_nonneg ?_ ?_) (confSkillMultiplier_nonneg agent.skill_level)
    · exact overlapRatio_nonneg agent analysis
    · exact div_nonneg (success_rate_nonneg agent.metrics) (by norm_num)
  · unfold calculateConfidence
    exact min_le_right _ _

/-- C8: the task "Fix bug in login flow" is classified as `bug_fixing` with
`bug_fixing` among its required capabilities, and on a directory holding a
bug-fixing-capable developer and a tester, `select_agents` returns that
developer as the primary assignment and the tester as a supporting one. -/
theorem bug_fix_routing_scenario :
    (analyzeTask "Fix bug in login flow").task_type = "bug_fixing" ∧
      "bug_fixing" ∈ (analyzeTask "Fix bug in login flow").required_capabilities ∧
      "bug_fixing" ∈ bugFixerAgent.capabilities ∧
      (selectAgents bugFixRegistry "Fix bug in login flow" 3).map
          (fun x => (x.agent.name, x.priority)) =
        [(bugFixerAgent.name, "primary"), (testerAgent.name, "supporting")] := by
  refine ⟨by decide, by decide, by decide, by decide⟩

end Orchestrator
